import Mathlib

set_option autoImplicit false

namespace VoiceWeave

/-! Shallow embedding of the VoiceWeave Studio project core (app.go): the
project data model, the registry (create/load/update), the namer with its
clash-resolution loop, the file-reference subsystem, and the full-pipeline
orchestrator.

Go strings are modelled as Lean `String`s, and the Go string primitives used
by the core (`strings.Contains`, `strings.Split`, `strings.TrimSpace`,
`filepath.Base`, `filepath.Ext`, ...) are re-implemented structurally on the
underlying character lists so that every definition evaluates by kernel
reduction.  Go `len` and slicing act on UTF-8 bytes; the models below count
bytes via `Char.utf8Size`, which agrees with Go except that Go byte-slicing
may cut a multi-byte character in half (unrepresentable in a `String`; all
separators, reserved characters and length caps in this code are ASCII). -/

/-- Go `strings.Contains` on character lists: `sub` occurs contiguously. -/
def listContainsSub (sub : List Char) : List Char → Bool
  | [] => sub.isEmpty
  | c :: cs => sub.isPrefixOf (c :: cs) || listContainsSub sub cs

/-- Go `strings.Contains`. -/
def goContains (s sub : String) : Bool :=
  listContainsSub sub.data s.data

/-- Scanner for Go `strings.Split` with a nonempty separator.  `acc` holds the
current chunk reversed; the fuel is immaterial as soon as it exceeds the
length of the remaining input, since every step consumes at least one
character. -/
def goSplitAux (sep : List Char) : Nat → List Char → List Char → List (List Char)
  | 0, acc, rest => [acc.reverse ++ rest]
  | fuel + 1, acc, rest =>
    if sep.isPrefixOf rest && !sep.isEmpty then
      acc.reverse :: goSplitAux sep fuel [] (rest.drop sep.length)
    else
      match rest with
      | [] => [acc.reverse]
      | c :: cs => goSplitAux sep fuel (c :: acc) cs

/-- Go `strings.Split` (for the nonempty separators used in app.go). -/
def goSplit (s sep : String) : List String :=
  (goSplitAux sep.data (s.data.length + 1) [] s.data).map (fun l => String.mk l)

/-- Go `strings.ToUpper`.  `Char.toUpper` upcases ASCII; the Go original also
upcases other Unicode letters, but the argument in app.go is a language code. -/
def goToUpper (s : String) : String :=
  String.mk (s.data.map Char.toUpper)

/-- Go `len` on a string: the number of UTF-8 bytes. -/
def goLen (s : String) : Nat :=
  (s.data.map Char.utf8Size).sum

/-- Go byte-slice truncation `s[:n]`, keeping whole characters (Go would cut a
multi-byte character; identical on ASCII input). -/
def takeBytes : Nat → List Char → List Char
  | _, [] => []
  | budget, c :: cs =>
    if c.utf8Size ≤ budget then c :: takeBytes (budget - c.utf8Size) cs else []

/-- ASCII part of Go `unicode.IsSpace`, as used by `strings.TrimSpace`. -/
def goIsSpace (c : Char) : Bool :=
  c == ' ' || c == '\t' || c == '\n' || c == '\r'

/-- Go `strings.TrimSpace`. -/
def goTrimSpace (s : String) : String :=
  String.mk (((s.data.dropWhile goIsSpace).reverse.dropWhile goIsSpace).reverse)

/-- Go `path/filepath.Base` on Unix-style paths. -/
def goBase (p : String) : String :=
  if p.data.isEmpty then "." else
  let stripped := (p.data.reverse.dropWhile (fun c => c == '/')).reverse
  if stripped.isEmpty then "/" else
  String.mk ((stripped.reverse.takeWhile (fun c => c != '/')).reverse)

/-- Go `path/filepath.Ext`: the suffix from the final dot in the final path
element, empty when that element has no dot. -/
def goExt (p : String) : String :=
  let revTail := p.data.reverse.takeWhile (fun c => c != '/')
  if revTail.contains '.' then
    String.mk ((revTail.takeWhile (fun c => c != '.') ++ ['.']).reverse)
  else ""

/-- Go `strings.TrimSuffix`. -/
def goTrimSuffix (s suffix : String) : String :=
  if suffix.data.isSuffixOf s.data then
    String.mk (s.data.take (s.data.length - suffix.data.length))
  else s

/-- Go `filepath.Join` for the two-component calls in app.go (a clean relative
subdirectory and a file basename), where Join reduces to inserting one
separator. -/
def goJoin (a b : String) : String :=
  a ++ "/" ++ b

/-- Unfolds `String.append` to list append on the underlying data. -/
theorem data_append (s t : String) : (s ++ t).data = s.data ++ t.data := by
  cases s; cases t; rfl

/-- Two strings with the same character data are equal. -/
theorem string_data_ext {s t : String} (h : s.data = t.data) : s = t := by
  cases s; cases t; exact congrArg String.mk h

/-! Injectivity of the decimal rendering `Nat.repr`, needed below for the
pigeonhole argument that the name-clash loop terminates: distinct version
counters yield distinct " (N)" suffixes. -/

/-- Digit list underlying `Nat.repr`: `[0]` for zero, otherwise
`Nat.digits 10 n` (least-significant first). -/
def reprDigits (n : Nat) : List Nat :=
  if n = 0 then [0] else Nat.digits 10 n

theorem toDigitsCore_eq_digits :
    ∀ (f n : Nat) (ds : List Char), 0 < n → n < 10 ^ f →
      Nat.toDigitsCore 10 f n ds = ((Nat.digits 10 n).map Nat.digitChar).reverse ++ ds := by
  intro f
  induction f with
  | zero => intro n ds hn hlt; simp at hlt; omega
  | succ f ih =>
    intro n ds hn hlt
    simp only [Nat.toDigitsCore]
    by_cases hdiv : n / 10 = 0
    · have h10 : n < 10 := by omega
      rw [if_pos hdiv, Nat.digits_def' (by norm_num : (1:ℕ) < 10) hn, hdiv]
      simp [Nat.mod_eq_of_lt h10]
    · rw [if_neg hdiv]
      have hn' : 0 < n / 10 := by omega
      have hlt' : n / 10 < 10 ^ f := by
        have hp : n < 10 ^ f * 10 := by
          have : (10:ℕ) ^ (f + 1) = 10 ^ f * 10 := by ring
          omega
        omega
      rw [ih (n / 10) (Nat.digitChar (n % 10) :: ds) hn' hlt',
        Nat.digits_def' (by norm_num : (1:ℕ) < 10) hn]
      simp

theorem toDigits_eq_reprDigits (n : Nat) :
    Nat.toDigits 10 n = ((reprDigits n).map Nat.digitChar).reverse := by
  by_cases h0 : n = 0
  · subst h0; rfl
  · have hn : 0 < n := Nat.pos_of_ne_zero h0
    have hlt : n < 10 ^ (n + 1) :=
      lt_of_lt_of_le (Nat.lt_pow_self (by norm_num) n)
        (Nat.pow_le_pow_right (by norm_num) (Nat.le_succ n))
    rw [Nat.toDigits, toDigitsCore_eq_digits (n + 1) n [] hn hlt, List.append_nil,
      reprDigits, if_neg h0]

theorem ofDigits_reprDigits (n : Nat) : Nat.ofDigits 10 (reprDigits n) = n := by
  rw [reprDigits]
  by_cases h0 : n = 0
  · rw [if_pos h0, h0]; simp [Nat.ofDigits]
  · rw [if_neg h0]; exact_mod_cast Nat.ofDigits_digits 10 n

theorem reprDigits_lt_ten (n : Nat) : ∀ d ∈ reprDigits n, d < 10 := by
  intro d hd
  rw [reprDigits] at hd
  by_cases h0 : n = 0
  · rw [if_pos h0] at hd; simp at hd; omega
  · rw [if_neg h0] at hd; exact Nat.digits_lt_base (by norm_num) hd

theorem digitChar_inj_lt_ten :
    ∀ a ∈ List.range 10, ∀ b ∈ List.range 10,
      Nat.digitChar a = Nat.digitChar b → a = b := by decide

theorem map_digitChar_injective :
    ∀ (l₁ l₂ : List Nat), (∀ x ∈ l₁, x < 10) → (∀ x ∈ l₂, x < 10) →
      l₁.map Nat.digitChar = l₂.map Nat.digitChar → l₁ = l₂
  | [], [], _, _, _ => rfl
  | [], _ :: _, _, _, h => by simp at h
  | _ :: _, [], _, _, h => by simp at h
  | a :: l₁, b :: l₂, h₁, h₂, h => by
    simp only [List.map_cons, List.cons.injEq] at h
    have hab : a = b :=
      digitChar_inj_lt_ten a (List.mem_range.mpr (h₁ a (List.mem_cons_self a l₁)))
        b (List.mem_range.mpr (h₂ b (List.mem_cons_self b l₂))) h.1
    have htl : l₁ = l₂ :=
      map_digitChar_injective l₁ l₂ (fun x hx => h₁ x (List.mem_cons_of_mem a hx))
        (fun x hx => h₂ x (List.mem_cons_of_mem b hx)) h.2
    rw [hab, htl]

theorem nat_repr_injective : Function.Injective Nat.repr := by
  intro m n h
  have h' : Nat.toDigits 10 m = Nat.toDigits 10 n := List.asString_inj.mp h
  rw [toDigits_eq_reprDigits, toDigits_eq_reprDigits] at h'
  have h₂ : (reprDigits m).map Nat.digitChar = (reprDigits n).map Nat.digitChar :=
    List.reverse_injective h'
  have h₃ : reprDigits m = reprDigits n :=
    map_digitChar_injective _ _ (reprDigits_lt_ten m) (reprDigits_lt_ten n) h₂
  have h₄ := congrArg (Nat.ofDigits 10) h₃
  rwa [ofDigits_reprDigits, ofDigits_reprDigits] at h₄

/-! Name-clash resolution (Go resolveProjectNameClash). -/

/-- Candidate folder name probed at version `n`: the base name for version 1,
otherwise the base plus a " (N)" suffix (Go fmt.Sprintf with %d renders the
counter in decimal, which is `Nat.repr`). -/
def candidateName (base : String) (n : Nat) : String :=
  if n = 1 then base else base ++ " (" ++ Nat.repr n ++ ")"

theorem candidateName_inj (base : String) {m n : Nat}
    (h : candidateName base m = candidateName base n) : m = n := by
  unfold candidateName at h
  by_cases h1 : m = 1 <;> by_cases h2 : n = 1
  · omega
  · rw [if_pos h1, if_neg h2] at h
    exfalso
    have hl : base.data.length = (base ++ " (" ++ Nat.repr n ++ ")").data.length :=
      congrArg (fun s => s.data.length) h
    rw [data_append, data_append, data_append, List.length_append, List.length_append,
      List.length_append, show (" (").data.length = 2 from rfl,
      show (")").data.length = 1 from rfl] at hl
    omega
  · rw [if_neg h1, if_pos h2] at h
    exfalso
    have hl : (base ++ " (" ++ Nat.repr m ++ ")").data.length = base.data.length :=
      congrArg (fun s => s.data.length) h
    rw [data_append, data_append, data_append, List.length_append, List.length_append,
      List.length_append, show (" (").data.length = 2 from rfl,
      show (")").data.length = 1 from rfl] at hl
    omega
  · rw [if_neg h1, if_neg h2] at h
    have hd := congrArg String.data h
    simp only [data_append, List.append_assoc] at hd
    have hmid : (Nat.repr m).data ++ ")".data = (Nat.repr n).data ++ ")".data :=
      List.append_cancel_left (List.append_cancel_left hd)
    have hrepr : Nat.repr m = Nat.repr n :=
      string_data_ext (List.append_cancel_right hmid)
    exact nat_repr_injective hrepr

/-- Pigeonhole: among the first `existing.length + 1` candidates (which are
pairwise distinct), at least one is not in `existing`. -/
theorem exists_fresh_candidate (existing : List String) (base : String) :
    ∃ k, k ≤ existing.length ∧ candidateName base (k + 1) ∉ existing := by
  by_contra hc
  push_neg at hc
  have hinj : Function.Injective (fun k : Nat => candidateName base (k + 1)) := by
    intro a b hab
    have := candidateName_inj base hab
    omega
  have hnodup : ((List.range (existing.length + 1)).map
      (fun k => candidateName base (k + 1))).Nodup :=
    (List.nodup_range _).map hinj
  have hsub : ((List.range (existing.length + 1)).map
      (fun k => candidateName base (k + 1))) ⊆ existing := by
    intro x hx
    simp only [List.mem_map, List.mem_range] at hx
    obtain ⟨k, hk, rfl⟩ := hx
    exact hc k (by omega)
  have hle := (hnodup.subperm hsub).length_le
  simp only [List.length_map, List.length_range] at hle
  omega

/-- Fuelled body of the Go clash-resolution loop.  The Go loop is
syntactically unbounded, but on a finite directory listing it always breaks
within `existing.length + 1` probes (`exists_fresh_candidate`), so running it
with that much fuel computes exactly the result of the Go loop. -/
def resolveClashAux (existing : List String) (base : String) : Nat → Nat → String × Nat
  | 0, version => (candidateName base version, version)
  | fuel + 1, version =>
    if candidateName base version ∈ existing then
      resolveClashAux existing base fuel (version + 1)
    else
      (candidateName base version, version)

/-- Go resolveProjectNameClash: starting from version 1, probe candidate names
until one does not exist in the projects directory, returning the name and the
version counter. -/
def resolveProjectNameClash (existing : List String) (base : String) : String × Nat :=
  resolveClashAux existing base (existing.length + 1) 1

theorem resolveClashAux_of_fresh (existing : List String) (base : String) :
    ∀ (fuel version k : Nat), k < fuel → candidateName base (version + k) ∉ existing →
      (resolveClashAux existing base fuel version).1 ∉ existing ∧
      (resolveClashAux existing base fuel version).2 ≤ version + k := by
  intro fuel
  induction fuel with
  | zero => intro version k hk; omega
  | succ fuel ih =>
    intro version k hk hfree
    by_cases hmem : candidateName base version ∈ existing
    · have hk0 : k ≠ 0 := by
        rintro rfl
        rw [Nat.add_zero] at hfree
        exact hfree hmem
      obtain ⟨k', rfl⟩ : ∃ k', k = k' + 1 := ⟨k - 1, by omega⟩
      have hrec := ih (version + 1) k' (by omega)
        (by rw [show version + 1 + k' = version + (k' + 1) by omega]; exact hfree)
      simp only [resolveClashAux, if_pos hmem]
      exact ⟨hrec.1, by omega⟩
    · simp only [resolveClashAux, if_neg hmem]
      exact ⟨hmem, by omega⟩

theorem resolveClashAux_exact (existing : List String) (base : String) :
    ∀ (fuel version i : Nat), i < fuel →
      (∀ j, j < i → candidateName base (version + j) ∈ existing) →
      candidateName base (version + i) ∉ existing →
      resolveClashAux existing base fuel version =
        (candidateName base (version + i), version + i) := by
  intro fuel
  induction fuel with
  | zero => intro version i hi; omega
  | succ fuel ih =>
    intro version i hi hall hfree
    cases i with
    | zero =>
      have hfree' : candidateName base version ∉ existing := by
        rwa [Nat.add_zero] at hfree
      simp only [Nat.add_zero, resolveClashAux, if_neg hfree']
    | succ i' =>
      have h0 : candidateName base version ∈ existing := by
        have := hall 0 (by omega)
        rwa [Nat.add_zero] at this
      simp only [resolveClashAux, if_pos h0]
      have hrec := ih (version + 1) i' (by omega)
        (fun j hj => by
          have := hall (j + 1) (by omega)
          rwa [show version + (j + 1) = version + 1 + j by omega] at this)
        (by rwa [show version + (i' + 1) = version + 1 + i' by omega] at hfree)
      rw [hrec]
      have harg : version + 1 + i' = version + (i' + 1) := by omega
      rw [harg]

/-- The resolved name never clashes with an existing entry. -/
theorem resolveProjectNameClash_not_mem (existing : List String) (base : String) :
    (resolveProjectNameClash existing base).1 ∉ existing := by
  obtain ⟨k, hk, hfree⟩ := exists_fresh_candidate existing base
  exact (resolveClashAux_of_fresh existing base (existing.length + 1) 1 k (by omega)
    (by rw [Nat.add_comm 1 k]; exact hfree)).1

/-- The returned version counter (= number of existence probes) is bounded by
the number of existing entries plus one. -/
theorem resolveProjectNameClash_version_le (existing : List String) (base : String) :
    (resolveProjectNameClash existing base).2 ≤ existing.length + 1 := by
  obtain ⟨k, hk, hfree⟩ := exists_fresh_candidate existing base
  have h := (resolveClashAux_of_fresh existing base (existing.length + 1) 1 k (by omega)
    (by rw [Nat.add_comm 1 k]; exact hfree)).2
  have h2 : (resolveProjectNameClash existing base).2 ≤ 1 + k := h
  omega

/-! Data model (app.go type declarations). -/

/-- Go FileReference. -/
structure FileReference where
  Path : String
  IsLinked : Bool
  OriginalPath : Option String
  Size : Option Int
  LastModified : Option String
  deriving DecidableEq, Inhabited

/-- Go CompletedSteps. -/
structure CompletedSteps where
  Download : Bool
  Transcribe : Bool
  Translate : Bool
  Synthesize : Bool
  Combine : Bool
  deriving DecidableEq, Inhabited

/-- Go FileReferences. -/
structure FileReferences where
  VideoFile : Option FileReference
  AudioFile : Option FileReference
  SegmentsFile : Option String
  FinalAudio : Option String
  FinalVideo : Option String
  deriving DecidableEq, Inhabited

/-- Go TranscriptionSettings. -/
structure TranscriptionSettings where
  Source : String
  EnableDiarization : Bool
  Language : String
  Model : Option String
  deriving DecidableEq, Inhabited

/-- Go AdvancedTranslationSettings. -/
structure AdvancedTranslationSettings where
  ContextWindow : Int
  EnableJudge : Bool
  Models : List String
  deriving DecidableEq, Inhabited

/-- Go TranslationSettings. -/
structure TranslationSettings where
  Mode : String
  SimpleModel : String
  CloudProvider : Option String
  AdvancedSettings : Option AdvancedTranslationSettings
  deriving DecidableEq, Inhabited

/-- Go AudioSettings. -/
structure AudioSettings where
  PreventOverlaps : Bool
  MinGap : Int
  GlobalCrossfade : Bool
  CrossfadeDuration : Int
  EffectsPreset : String
  deriving DecidableEq, Inhabited

/-- Go CleanupSettings. -/
structure CleanupSettings where
  Mode : String
  KeepIntermediateFiles : Bool
  deriving DecidableEq, Inhabited

/-- Go ProjectSettings. -/
structure ProjectSettings where
  Transcription : TranscriptionSettings
  Translation : TranslationSettings
  Audio : AudioSettings
  Cleanup : CleanupSettings
  deriving DecidableEq, Inhabited

/-- Go TextRule. -/
structure TextRule where
  ID : String
  OriginalText : String
  ReplacementText : String
  Language : String
  Priority : String
  CaseSensitive : Bool
  CreatedAt : String
  deriving DecidableEq, Inhabited

/-- Go SegmentRule.  Conditions and Actions are opaque JSON objects the core
never interprets; they are modelled as key-value lists.  The Go field `Type`
is a Lean keyword and is rendered `RuleType`. -/
structure SegmentRule where
  ID : String
  RuleType : String
  Conditions : List (String × String)
  Actions : List (String × String)
  Enabled : Bool
  CreatedAt : String
  deriving DecidableEq, Inhabited

/-- Go AppSettings. -/
structure AppSettings where
  DefaultProjectsPath : String
  AutoCleanup : String
  ShowOnboarding : Bool
  RecentProjects : List String
  ExportLocation : String
  CustomExportPath : Option String
  deriving DecidableEq, Inhabited

/-- Go ProjectConfig.  The Version counter comes from clash resolution and is
a natural number. -/
structure ProjectConfig where
  ID : String
  Name : String
  Created : String
  LastModified : String
  Version : Nat
  SourceType : String
  SourceUrl : Option String
  VideoId : Option String
  OriginalFilename : Option String
  TargetLanguage : String
  CompletedSteps : CompletedSteps
  FileReferences : FileReferences
  Settings : ProjectSettings
  TextRules : List TextRule
  SegmentRules : List SegmentRule
  deriving DecidableEq, Inhabited

/-! Registry state and helper operations. -/

/-- Snapshot of the on-disk state the registry manipulates: every project
folder under defaultProjectsPath, keyed by folder name and carrying its parsed
project.json document, plus the parsed settings.json document.  Directory
enumeration is modelled by list order; the claims below are insensitive to the
enumeration order because the relevant keys are unique. -/
structure Store where
  projects : List (String × ProjectConfig)
  settings : AppSettings
  deriving DecidableEq, Inhabited

/-- Single-character replacement applied to one character. -/
def replace1 (pat rep c : Char) : Char :=
  if c = pat then rep else c

/-- Go sanitizeForFilename helper: strings.ReplaceAll with a single-character
pattern and replacement is exactly a character-wise map. -/
def goReplaceAll1 (s : String) (pat rep : Char) : String :=
  String.mk (s.data.map (replace1 pat rep))

/-- Go sanitizeForFilename (app.go): replace each of the nine reserved
characters with a dash, truncate to 50 bytes, trim surrounding whitespace. -/
def sanitizeForFilename (name : String) : String :=
  let name := goReplaceAll1 name '/' '-'
  let name := goReplaceAll1 name '\\' '-'
  let name := goReplaceAll1 name ':' '-'
  let name := goReplaceAll1 name '*' '-'
  let name := goReplaceAll1 name '?' '-'
  let name := goReplaceAll1 name '\"' '-'
  let name := goReplaceAll1 name '<' '-'
  let name := goReplaceAll1 name '>' '-'
  let name := goReplaceAll1 name '|' '-'
  let name := if goLen name > 50 then String.mk (takeBytes 50 name.data) else name
  goTrimSpace name

/-- Folder name constructed in CreateProject before clash resolution:
"<sanitized display name> [<videoID>] [<TARGET-LANG-UPPERCASE>]". -/
def mkFolderName (displayName videoID targetLang : String) : String :=
  sanitizeForFilename displayName ++ " [" ++ videoID ++ "] [" ++ goToUpper targetLang ++ "]"

/-- Trailing branch of Go extractVideoID: a bare 11-byte identifier without a
slash is accepted as-is; anything else yields the empty string. -/
def extractVideoIDTail (url : String) : String :=
  if goLen url = 11 && !goContains url "/" then url else ""

/-- Go extractVideoID: naive YouTube URL parsing. -/
def extractVideoID (url : String) : String :=
  if goContains url "youtube.com/watch?v=" then
    let parts := goSplit url "v="
    if parts.length > 1 then (goSplit (parts[1]?.getD "") "&").headD ""
    else extractVideoIDTail url
  else if goContains url "youtu.be/" then
    let parts := goSplit url "youtu.be/"
    if parts.length > 1 then (goSplit (parts[1]?.getD "") "?").headD ""
    else extractVideoIDTail url
  else extractVideoIDTail url

/-- First phase of Go addToRecentProjects: remove the first occurrence of the
id (the Go loop deletes one entry and breaks). -/
def removeFirst : List String → String → List String
  | [], _ => []
  | x :: xs, pid => if x = pid then xs else x :: removeFirst xs pid

/-- Go addToRecentProjects on the recentProjects list: drop an existing
occurrence of the id, push the id onto the front, cap the length at 5. -/
def addToRecentProjects (recent : List String) (projectID : String) : List String :=
  (projectID :: removeFirst recent projectID).take 5

/-! CreateProject / LoadProject / GetRecentProjects. -/

/-- The os.Stat data CreateProject reads from a local source file. -/
structure FileStat where
  SizeBytes : Int
  ModTime : String
  deriving DecidableEq, Inhabited

/-- Ambient effects consumed by one CreateProject call: the generated random
project ID, the RFC3339-formatted current time, the Unix timestamp used for
local video IDs, and the os.Stat result for a local source file (none when
stat fails). -/
structure CreateEnv where
  projectID : String
  now : String
  nowUnix : Int
  sourceStat : Option FileStat
  deriving DecidableEq, Inhabited

/-- Default project settings populated by CreateProject. -/
def defaultProjectSettings : ProjectSettings :=
  { Transcription :=
      { Source := "whisperx", EnableDiarization := true, Language := "en", Model := none }
    Translation :=
      { Mode := "simple", SimpleModel := "m2m100_418m", CloudProvider := none,
        AdvancedSettings := none }
    Audio :=
      { PreventOverlaps := true, MinGap := 100, GlobalCrossfade := false,
        CrossfadeDuration := 150, EffectsPreset := "voice" }
    Cleanup := { Mode := "auto", KeepIntermediateFiles := false } }

/-- The switch over sourceType in CreateProject: derives the display name, the
video ID and (for local sources) the initial linked file reference, or fails
with the corresponding CreateProject error. -/
def deriveSourceInfo (env : CreateEnv) (sourceType source customName : String) :
    Except String (String × String × Option FileReference) :=
  if sourceType = "youtube" then
    let videoID := extractVideoID source
    if videoID = "" then .error ("invalid YouTube URL: " ++ source)
    else
      .ok (if customName = "" then "YouTube Video " ++ videoID else customName, videoID, none)
  else if sourceType = "video" ∨ sourceType = "audio" then
    let videoID := "local_" ++ toString env.nowUnix
    let filename := goBase source
    let baseName := goTrimSuffix filename (goExt filename)
    let displayName := if customName = "" then baseName else customName
    match env.sourceStat with
    | none => .error "source file not found"
    | some stat =>
      .ok (displayName, videoID,
        some { Path := source, IsLinked := true, OriginalPath := some source,
               Size := some stat.SizeBytes, LastModified := some stat.ModTime })
  else .error ("invalid source type: " ++ sourceType)

/-- The ProjectConfig document assembled by CreateProject. -/
def mkProjectConfig (env : CreateEnv) (sourceType source targetLang displayName videoID : String)
    (fileRef : Option FileReference) (version : Nat) : ProjectConfig :=
  { ID := env.projectID
    Name := displayName
    Created := env.now
    LastModified := env.now
    Version := version
    SourceType := sourceType
    SourceUrl := if sourceType = "youtube" then some source else none
    VideoId := some videoID
    OriginalFilename := if sourceType = "youtube" then none else some (goBase source)
    TargetLanguage := targetLang
    CompletedSteps :=
      { Download := false, Transcribe := false, Translate := false,
        Synthesize := false, Combine := false }
    FileReferences :=
      if sourceType = "video" then
        { VideoFile := fileRef, AudioFile := none, SegmentsFile := none,
          FinalAudio := none, FinalVideo := none }
      else if sourceType = "audio" then
        { VideoFile := none, AudioFile := fileRef, SegmentsFile := none,
          FinalAudio := none, FinalVideo := none }
      else
        { VideoFile := none, AudioFile := none, SegmentsFile := none,
          FinalAudio := none, FinalVideo := none }
    Settings := defaultProjectSettings
    TextRules := []
    SegmentRules := [] }

/-- Go CreateProject.  Directory creation (projects root, project folder and
the four subdirectories) and the two file writes are assumed to succeed; a
failing addToRecentProjects only logs a warning in Go, so the settings update
is unconditional.  On an error path nothing has been written, matching the Go
control flow where validation precedes folder creation. -/
def createProject (env : CreateEnv) (st : Store)
    (sourceType source targetLang customName : String) :
    Store × Except String ProjectConfig :=
  match deriveSourceInfo env sourceType source customName with
  | .error e => (st, .error e)
  | .ok (displayName, videoID, fileRef) =>
    let folderBase := mkFolderName displayName videoID targetLang
    let resolved := resolveProjectNameClash (st.projects.map Prod.fst) folderBase
    let project :=
      mkProjectConfig env sourceType source targetLang displayName videoID fileRef resolved.2
    ({ projects := st.projects ++ [(resolved.1, project)]
       settings := { st.settings with
         RecentProjects := addToRecentProjects st.settings.RecentProjects env.projectID } },
     .ok project)

/-- Go findProjectDirectory: scan the project folders in enumeration order and
return the first whose document carries the wanted ID. -/
def findProjectDirectory (st : Store) (projectID : String) : Except String String :=
  match st.projects.find? (fun p => p.2.ID == projectID) with
  | some p => .ok p.1
  | none => .error ("project not found: " ++ projectID)

/-- Reading and parsing <dir>/project.json. -/
def readProjectConfig (st : Store) (dir : String) : Except String ProjectConfig :=
  match st.projects.find? (fun p => p.1 == dir) with
  | some p => .ok p.2
  | none => .error "failed to read project config"

/-- Go LoadProject. -/
def loadProject (st : Store) (projectID : String) : Except String ProjectConfig :=
  match findProjectDirectory st projectID with
  | .error e => .error ("project not found: " ++ e)
  | .ok dir => readProjectConfig st dir

/-- The loop of Go GetRecentProjects: load each recent id, silently skipping
entries that fail to load. -/
def loadRecentAux (st : Store) : List String → List ProjectConfig
  | [] => []
  | i :: rest =>
    match loadProject st i with
    | .error _ => loadRecentAux st rest
    | .ok p => p :: loadRecentAux st rest

/-- Go GetRecentProjects (settings are available in the Store, so the only Go
error path, a failing GetAppSettings, does not arise in the model). -/
def getRecentProjects (st : Store) : Except String (List ProjectConfig) :=
  .ok (loadRecentAux st st.settings.RecentProjects)

/-! File-reference copy subsystem. -/

/-- Outcomes of the three fallible filesystem steps inside copyFileToProject:
opening the source, creating the destination, streaming the bytes. -/
structure FsOutcome where
  openSrcOk : Bool
  createDestOk : Bool
  copyOk : Bool
  deriving DecidableEq, Inhabited

/-- Go copyFileToProject.  A no-op on an already-copied reference; on any
filesystem failure it returns the error before touching the reference.  On
success Go executes

  fileRef.OriginalPath = &fileRef.Path
  fileRef.Path = relativePath
  fileRef.IsLinked = false

storing a pointer to the Path field and then overwriting that field, so the
observable OriginalPath afterwards is the NEW relative path, not the old
source path; the value-level translation below reproduces that aliasing. -/
def copyFileToProject (fs : FsOutcome) (projectDir subdir : String)
    (fileRef : FileReference) : Option String × FileReference :=
  if !fileRef.IsLinked then (none, fileRef)
  else if !fs.openSrcOk then (some "failed to open source file", fileRef)
  else if !fs.createDestOk then (some "failed to create destination file", fileRef)
  else if !fs.copyOk then (some "failed to copy file", fileRef)
  else
    let filename := goBase fileRef.Path
    let relativePath := goJoin subdir filename
    (none,
      { fileRef with
          OriginalPath := some relativePath
          Path := relativePath
          IsLinked := false })

/-- Result of Go CopyLinkedFilesToProject: which references the copy helper
was invoked for (in order), the in-memory project afterwards, the returned
error, and whether UpdateProject persisted the document. -/
structure CopyAllResult where
  attempts : List String
  project : ProjectConfig
  err : Option String
  persisted : Bool
  deriving DecidableEq, Inhabited

/-- Audio half of Go CopyLinkedFilesToProject, entered after the video half
finished without error.  `updated` records whether the video reference was
copied. -/
def copyAudioPhase (fsA : FsOutcome) (projectDir : String) (project : ProjectConfig)
    (attempts : List String) (updated : Bool) : CopyAllResult :=
  match project.FileReferences.AudioFile with
  | some aref =>
    if aref.IsLinked then
      match copyFileToProject fsA projectDir "input" aref with
      | (some e, _) =>
        { attempts := attempts ++ ["audio"], project := project,
          err := some ("failed to copy audio file: " ++ e), persisted := false }
      | (none, aref2) =>
        { attempts := attempts ++ ["audio"],
          project := { project with
            FileReferences := { project.FileReferences with AudioFile := some aref2 } },
          err := none, persisted := true }
    else
      { attempts := attempts, project := project, err := none, persisted := updated }
  | none => { attempts := attempts, project := project, err := none, persisted := updated }

/-- Go CopyLinkedFilesToProject, starting from an already-loaded project (the
Go prologue loads the project and resolves its directory).  `persisted` is
true exactly when Go reaches `a.UpdateProject(project)`, i.e. when no copy
failed and at least one reference was copied. -/
def copyLinkedFilesToProject (fsV fsA : FsOutcome) (projectDir : String)
    (project : ProjectConfig) : CopyAllResult :=
  match project.FileReferences.VideoFile with
  | some vref =>
    if vref.IsLinked then
      match copyFileToProject fsV projectDir "input" vref with
      | (some e, _) =>
        { attempts := ["video"], project := project,
          err := some ("failed to copy video file: " ++ e), persisted := false }
      | (none, vref2) =>
        copyAudioPhase fsA projectDir
          { project with
            FileReferences := { project.FileReferences with VideoFile := some vref2 } }
          ["video"] true
    else copyAudioPhase fsA projectDir project [] false
  | none => copyAudioPhase fsA projectDir project [] false

/-! Pipeline orchestrator (Go RunFullPipeline). -/

/-- Structured step result parsed from the executor's JSON output: the value
of the "success" key when present and boolean (none models a missing or
non-boolean value, which Go treats as failure), and the "error" value. -/
structure StepResult where
  success : Option Bool
  error : Option String
  deriving DecidableEq, Inhabited

/-- The Go error value returned by RunFullPipeline: either the error of a
RunPipelineStep invocation, or the "pipeline step failed" error built for a
step that reported failure. -/
inductive RunErr where
  | invocation (msg : String)
  | stepFailed (step : String)
  deriving DecidableEq, Inhabited

/-- The results map assembled by RunFullPipeline: the per-step sub-results in
insertion order, and the success / failedStep / error / message keys. -/
structure AggregateResult where
  steps : List (String × StepResult)
  success : Bool
  failedStep : Option String
  error : Option String
  message : Option String
  deriving DecidableEq, Inhabited

/-- One run of RunFullPipeline: the steps whose executor was invoked (in
order), the aggregate results map, and the returned Go error. -/
structure RunFullOutcome where
  invoked : List String
  agg : AggregateResult
  err : Option RunErr
  deriving DecidableEq, Inhabited

/-- The five fixed pipeline stages, in order. -/
def pipelineSteps : List String :=
  ["download", "transcribe", "translate", "synthesize", "combine"]

/-- Loop body of Go RunFullPipeline over the remaining steps, threading the
accumulated results map and invocation trace. -/
def runFullAux (exec : String → Except String StepResult) :
    List String → List (String × StepResult) → List String → RunFullOutcome
  | [], acc, invoked =>
    { invoked := invoked
      agg := { steps := acc, success := true, failedStep := none, error := none,
               message := some "✅ Full pipeline completed successfully" }
      err := none }
  | step :: rest, acc, invoked =>
    match exec step with
    | .error e =>
      { invoked := invoked ++ [step]
        agg := { steps := acc, success := false, failedStep := some step,
                 error := some e, message := none }
        err := some (RunErr.invocation e) }
    | .ok r =>
      if r.success = some true then
        runFullAux exec rest (acc ++ [(step, r)]) (invoked ++ [step])
      else
        { invoked := invoked ++ [step]
          agg := { steps := acc ++ [(step, r)], success := false, failedStep := some step,
                   error := r.error, message := none }
          err := some (RunErr.stepFailed step) }

/-- Go RunFullPipeline, parameterised by the step executor (RunPipelineStep
with the project fixed): an Except.error models a failed invocation, an
Except.ok carries the parsed result document. -/
def runFullPipeline (exec : String → Except String StepResult) : RunFullOutcome :=
  runFullAux exec pipelineSteps [] []

/-- A step invocation counts as fully successful when it returned a parsed
document whose "success" field is the boolean true (Go: ok && success). -/
def stepOk (r : Except String StepResult) : Bool :=
  match r with
  | .ok res => res.success == some true
  | .error _ => false

/-- The parsed result of a step known to have been invoked successfully. -/
def execRes (exec : String → Except String StepResult) (step : String) : StepResult :=
  match exec step with
  | .ok r => r
  | .error _ => { success := none, error := none }

/-! Sanitizer variants used to settle the folder-naming claim. -/

/-- The nine reserved characters listed by the specification. -/
def reservedChars : List Char :=
  ['/', '\\', ':', '*', '?', '\"', '<', '>', '|']

/-- Character-wise replacement of a reserved character by a dash (the fused
form of the nine ReplaceAll calls, used by the amended claim). -/
def replaceReservedChar (c : Char) : Char :=
  if c ∈ reservedChars then '-' else c

/-- Sanitizer in the fused map form of the amended claim. -/
def sanitizeByReplacing (name : String) : String :=
  let name := String.mk (name.data.map replaceReservedChar)
  let name := if goLen name > 50 then String.mk (takeBytes 50 name.data) else name
  goTrimSpace name

/-- Sanitizer as the original claim words it: the reserved characters are
STRIPPED from the name (removed outright). -/
def sanitizeByStripping (name : String) : String :=
  let name := String.mk (name.data.filter (fun c => !reservedChars.contains c))
  let name := if goLen name > 50 then String.mk (takeBytes 50 name.data) else name
  goTrimSpace name

/-- Folder name as the original claim describes it, built on the stripping
sanitizer. -/
def claimedFolderName (displayName videoID targetLang : String) : String :=
  sanitizeByStripping displayName ++ " [" ++ videoID ++ "] [" ++ goToUpper targetLang ++ "]"

/-! Theorems about the pipeline orchestrator. -/

theorem runFullAux_all_ok (exec : String → Except String StepResult) :
    ∀ (steps : List String) (acc : List (String × StepResult)) (invoked : List String),
      (∀ s ∈ steps, stepOk (exec s) = true) →
      runFullAux exec steps acc invoked =
        { invoked := invoked ++ steps
          agg := { steps := acc ++ steps.map (fun s => (s, execRes exec s)),
                   success := true, failedStep := none, error := none,
                   message := some "✅ Full pipeline completed successfully" }
          err := none } := by
  intro steps
  induction steps with
  | nil => intro acc invoked _; simp [runFullAux]
  | cons s rest ih =>
    intro acc invoked h
    have hs := h s (List.mem_cons_self s rest)
    cases hexec : exec s with
    | error e => rw [hexec] at hs; simp [stepOk] at hs
    | ok r =>
      rw [hexec] at hs
      simp only [stepOk, beq_iff_eq] at hs
      simp only [runFullAux, hexec, if_pos hs]
      rw [ih (acc ++ [(s, r)]) (invoked ++ [s])
        (fun t ht => h t (List.mem_cons_of_mem s ht))]
      simp [execRes, hexec]

theorem runFullAux_first_failure (exec : String → Except String StepResult) :
    ∀ (pre : List String) (s : String) (rest : List String)
      (acc : List (String × StepResult)) (invoked : List String),
      (∀ t ∈ pre, stepOk (exec t) = true) →
      stepOk (exec s) = false →
      runFullAux exec (pre ++ s :: rest) acc invoked =
        { invoked := invoked ++ pre ++ [s]
          agg := { steps := (acc ++ pre.map (fun t => (t, execRes exec t))) ++
                     (match exec s with | .ok r => [(s, r)] | .error _ => []),
                   success := false, failedStep := some s,
                   error := (match exec s with | .ok r => r.error | .error e => some e),
                   message := none }
          err := some (match exec s with
            | .ok _ => RunErr.stepFailed s
            | .error e => RunErr.invocation e) } := by
  intro pre
  induction pre with
  | nil =>
    intro s rest acc invoked _ hfail
    cases hexec : exec s with
    | error e => simp [runFullAux, hexec]
    | ok r =>
      have hneq : ¬ r.success = some true := by
        intro hc
        rw [hexec] at hfail
        simp [stepOk, hc] at hfail
      simp [runFullAux, hexec, if_neg hneq]
  | cons t pre ih =>
    intro s rest acc invoked hpre hfail
    have ht := hpre t (List.mem_cons_self t pre)
    cases hexec : exec t with
    | error e => rw [hexec] at ht; simp [stepOk] at ht
    | ok r =>
      rw [hexec] at ht
      simp only [stepOk, beq_iff_eq] at ht
      simp only [List.cons_append, runFullAux, hexec, if_pos ht, List.append_eq]
      rw [ih s rest (acc ++ [(t, r)]) (invoked ++ [t])
        (fun u hu => hpre u (List.mem_cons_of_mem t hu)) hfail]
      simp [execRes, hexec]

theorem map_fst_pair {α β : Type} (f : α → β) (l : List α) :
    (l.map (fun t => (t, f t))).map Prod.fst = l := by
  induction l with
  | nil => rfl
  | cons a l ih => simp [ih]

theorem map_fst_comp_pair {α β : Type} (f : α → β) (l : List α) :
    l.map (Prod.fst ∘ fun t => (t, f t)) = l := by
  induction l with
  | nil => rfl
  | cons a l ih => simp [ih]

/-- Claim C1: RunFullPipeline works through the five stages in the fixed order
download, transcribe, translate, synthesize, combine; as soon as one stage
fails — either the step invocation errors, or the parsed result does not
report success = true — no later stage is invoked, the aggregate results map
names that stage as failedStep together with the associated error and a
non-nil Go error is returned; when all five stages succeed the aggregate
reports overall success. -/
theorem runFullPipeline_stop_on_first_failure (exec : String → Except String StepResult) :
    ((∀ s ∈ pipelineSteps, stepOk (exec s) = true) →
      (runFullPipeline exec).agg.success = true ∧
      (runFullPipeline exec).invoked = pipelineSteps ∧
      (runFullPipeline exec).err = none ∧
      (runFullPipeline exec).agg.failedStep = none) ∧
    (∀ pre s post, pipelineSteps = pre ++ s :: post →
      (∀ t ∈ pre, stepOk (exec t) = true) →
      stepOk (exec s) = false →
      (runFullPipeline exec).invoked = pre ++ [s] ∧
      (runFullPipeline exec).agg.success = false ∧
      (runFullPipeline exec).agg.failedStep = some s ∧
      (runFullPipeline exec).agg.error =
        (match exec s with | .ok r => r.error | .error e => some e) ∧
      (runFullPipeline exec).agg.steps.map Prod.fst =
        pre ++ (match exec s with | .ok _ => [s] | .error _ => []) ∧
      (runFullPipeline exec).err ≠ none) := by
  constructor
  · intro h
    rw [runFullPipeline, runFullAux_all_ok exec pipelineSteps [] [] h]
    simp
  · intro pre s post hsplit hpre hfail
    rw [runFullPipeline, hsplit, runFullAux_first_failure exec pre s post [] [] hpre hfail]
    cases hexec : exec s <;> simp [map_fst_pair, map_fst_comp_pair]

/-- Concrete executor for the claim C1 witness: translate reports a business
failure, every other stage succeeds. -/
def execWitness : String → Except String StepResult := fun t =>
  if t = "translate" then Except.ok { success := some false, error := some "boom" }
  else Except.ok { success := some true, error := none }

/-- Claim C1 witness: with execWitness, download and transcribe run, translate
fails, synthesize and combine are never invoked, and the aggregate names
translate with its error. -/
theorem runFullPipeline_stop_witness :
    (runFullPipeline execWitness).invoked = ["download", "transcribe", "translate"] ∧
    (runFullPipeline execWitness).agg.success = false ∧
    (runFullPipeline execWitness).agg.failedStep = some "translate" ∧
    (runFullPipeline execWitness).agg.error = some "boom" ∧
    (runFullPipeline execWitness).err ≠ none := by
  have h := (runFullPipeline_stop_on_first_failure execWitness).2
    ["download", "transcribe"] "translate" ["synthesize", "combine"] rfl
    (by decide) (by decide)
  refine ⟨h.1, h.2.1, h.2.2.1, ?_, h.2.2.2.2.2⟩
  rw [h.2.2.2.1]
  decide

/-! Theorems about the file-reference copy subsystem. -/

/-- The copied shape of a linked reference after a successful copy (with the
OriginalPath aliasing of the Go code, see copyFileToProject). -/
def copiedRef (subdir : String) (ref : FileReference) : FileReference :=
  { ref with
      OriginalPath := some (goJoin subdir (goBase ref.Path))
      Path := goJoin subdir (goBase ref.Path)
      IsLinked := false }

theorem copyFileToProject_linked_eq (fs : FsOutcome) (pd sd : String)
    (ref : FileReference) (h : ref.IsLinked = true) :
    copyFileToProject fs pd sd ref =
      if fs.openSrcOk = false then (some "failed to open source file", ref)
      else if fs.createDestOk = false then (some "failed to create destination file", ref)
      else if fs.copyOk = false then (some "failed to copy file", ref)
      else (none, copiedRef sd ref) := by
  unfold copyFileToProject copiedRef
  rw [h]
  cases fs.openSrcOk <;> cases fs.createDestOk <;> cases fs.copyOk <;> simp

theorem copyFileToProject_not_linked (fs : FsOutcome) (pd sd : String)
    (ref : FileReference) (h : ref.IsLinked = false) :
    copyFileToProject fs pd sd ref = (none, ref) := by
  unfold copyFileToProject
  rw [h]
  simp

theorem copyFileToProject_error_frozen (fs : FsOutcome) (pd sd : String)
    (ref : FileReference) (e : String)
    (h : (copyFileToProject fs pd sd ref).1 = some e) :
    (copyFileToProject fs pd sd ref).2 = ref := by
  cases hl : ref.IsLinked
  · rw [copyFileToProject_not_linked fs pd sd ref hl]
  · rw [copyFileToProject_linked_eq fs pd sd ref hl] at h ⊢
    cases ho : fs.openSrcOk <;> cases hc : fs.createDestOk <;> cases hk : fs.copyOk <;>
      simp_all

theorem copyFileToProject_success_shape (fs : FsOutcome) (pd sd : String)
    (ref ref2 : FileReference) (hl : ref.IsLinked = true)
    (h : copyFileToProject fs pd sd ref = (none, ref2)) :
    ref2 = copiedRef sd ref := by
  rw [copyFileToProject_linked_eq fs pd sd ref hl] at h
  cases ho : fs.openSrcOk <;> cases hc : fs.createDestOk <;> cases hk : fs.copyOk <;>
    simp_all

theorem copyAudioPhase_none (fsA : FsOutcome) (pd : String) (q : ProjectConfig)
    (att : List String) (upd : Bool) (haf : q.FileReferences.AudioFile = none) :
    copyAudioPhase fsA pd q att upd =
      { attempts := att, project := q, err := none, persisted := upd } := by
  unfold copyAudioPhase
  rw [haf]

theorem copyAudioPhase_notlinked (fsA : FsOutcome) (pd : String) (q : ProjectConfig)
    (att : List String) (upd : Bool) (aref : FileReference)
    (haf : q.FileReferences.AudioFile = some aref) (hl : aref.IsLinked = false) :
    copyAudioPhase fsA pd q att upd =
      { attempts := att, project := q, err := none, persisted := upd } := by
  unfold copyAudioPhase
  rw [haf]
  simp [hl]

theorem copyAudioPhase_linked_err (fsA : FsOutcome) (pd : String) (q : ProjectConfig)
    (att : List String) (upd : Bool) (aref rest : FileReference) (e : String)
    (haf : q.FileReferences.AudioFile = some aref) (hl : aref.IsLinked = true)
    (hcp : copyFileToProject fsA pd "input" aref = (some e, rest)) :
    copyAudioPhase fsA pd q att upd =
      { attempts := att ++ ["audio"], project := q,
        err := some ("failed to copy audio file: " ++ e), persisted := false } := by
  unfold copyAudioPhase
  rw [haf]
  simp [hl, hcp]

theorem copyAudioPhase_linked_ok (fsA : FsOutcome) (pd : String) (q : ProjectConfig)
    (att : List String) (upd : Bool) (aref aref2 : FileReference)
    (haf : q.FileReferences.AudioFile = some aref) (hl : aref.IsLinked = true)
    (hcp : copyFileToProject fsA pd "input" aref = (none, aref2)) :
    copyAudioPhase fsA pd q att upd =
      { attempts := att ++ ["audio"],
        project := { q with
          FileReferences := { q.FileReferences with AudioFile := some aref2 } },
        err := none, persisted := true } := by
  unfold copyAudioPhase
  rw [haf]
  simp [hl, hcp]

theorem copyLinked_vnone (fsV fsA : FsOutcome) (pd : String) (p : ProjectConfig)
    (hvf : p.FileReferences.VideoFile = none) :
    copyLinkedFilesToProject fsV fsA pd p = copyAudioPhase fsA pd p [] false := by
  unfold copyLinkedFilesToProject
  rw [hvf]

theorem copyLinked_vnotlinked (fsV fsA : FsOutcome) (pd : String) (p : ProjectConfig)
    (vref : FileReference) (hvf : p.FileReferences.VideoFile = some vref)
    (hl : vref.IsLinked = false) :
    copyLinkedFilesToProject fsV fsA pd p = copyAudioPhase fsA pd p [] false := by
  unfold copyLinkedFilesToProject
  rw [hvf]
  simp [hl]

theorem copyLinked_verr (fsV fsA : FsOutcome) (pd : String) (p : ProjectConfig)
    (vref rest : FileReference) (e : String)
    (hvf : p.FileReferences.VideoFile = some vref) (hl : vref.IsLinked = true)
    (hcp : copyFileToProject fsV pd "input" vref = (some e, rest)) :
    copyLinkedFilesToProject fsV fsA pd p =
      { attempts := ["video"], project := p,
        err := some ("failed to copy video file: " ++ e), persisted := false } := by
  unfold copyLinkedFilesToProject
  rw [hvf]
  simp [hl, hcp]

theorem copyLinked_vok (fsV fsA : FsOutcome) (pd : String) (p : ProjectConfig)
    (vref vref2 : FileReference)
    (hvf : p.FileReferences.VideoFile = some vref) (hl : vref.IsLinked = true)
    (hcp : copyFileToProject fsV pd "input" vref = (none, vref2)) :
    copyLinkedFilesToProject fsV fsA pd p =
      copyAudioPhase fsA pd
        { p with FileReferences := { p.FileReferences with VideoFile := some vref2 } }
        ["video"] true := by
  unfold copyLinkedFilesToProject
  rw [hvf]
  simp [hl, hcp]

/-- Claim C3 (code bug): on a successful copy, Go stores the address of the
Path field into OriginalPath and then overwrites Path, so the observable
originalPath afterwards equals the NEW subdir-relative path — the old source
path is lost, contrary to the claim (and to the provenance the spec
prescribes for the link-to-copy transition).  Failing input: a linked video
reference at "/movies/demo.mp4" copied into subdirectory "input" with all
three filesystem steps succeeding. -/
theorem copyFileToProject_aliasing_bug :
    (copyFileToProject { openSrcOk := true, createDestOk := true, copyOk := true }
        "/projects/p1" "input"
        { Path := "/movies/demo.mp4", IsLinked := true,
          OriginalPath := some "/movies/demo.mp4", Size := none,
          LastModified := none }).2.OriginalPath = some "input/demo.mp4" ∧
    (copyFileToProject { openSrcOk := true, createDestOk := true, copyOk := true }
        "/projects/p1" "input"
        { Path := "/movies/demo.mp4", IsLinked := true,
          OriginalPath := some "/movies/demo.mp4", Size := none,
          LastModified := none }).2.OriginalPath ≠ some "/movies/demo.mp4" := by
  decide

/-- Claim C7: isLinked is one-directional.  (1) Every file reference populated
by a successful CreateProject is created with isLinked = true; (2) the copy
operation is a no-op on a reference with isLinked = false; (3) the copy
operation never turns isLinked from false to true (if the resulting reference
is linked, the input already was); (4) CopyLinkedFilesToProject never turns
the isLinked of either stored reference from false to true. -/
theorem isLinked_one_directional :
    (∀ (env : CreateEnv) (st : Store) (sourceType source targetLang customName : String)
        (st' : Store) (proj : ProjectConfig),
      createProject env st sourceType source targetLang customName = (st', .ok proj) →
      ∀ r, (proj.FileReferences.VideoFile = some r ∨ proj.FileReferences.AudioFile = some r) →
        r.IsLinked = true) ∧
    (∀ (fs : FsOutcome) (pd sd : String) (ref : FileReference),
      ref.IsLinked = false → copyFileToProject fs pd sd ref = (none, ref)) ∧
    (∀ (fs : FsOutcome) (pd sd : String) (ref : FileReference),
      (copyFileToProject fs pd sd ref).2.IsLinked = true → ref.IsLinked = true) ∧
    (∀ (fsV fsA : FsOutcome) (pd : String) (p : ProjectConfig) (r' : FileReference),
      (((copyLinkedFilesToProject fsV fsA pd p).project.FileReferences.VideoFile = some r' →
          r'.IsLinked = true → ∃ r, p.FileReferences.VideoFile = some r ∧ r.IsLinked = true) ∧
        ((copyLinkedFilesToProject fsV fsA pd p).project.FileReferences.AudioFile = some r' →
          r'.IsLinked = true → ∃ r, p.FileReferences.AudioFile = some r ∧ r.IsLinked = true))) := by
  refine ⟨?_, ?_, ?_, ?_⟩
  · intro env st sourceType source targetLang customName st' proj h r hr
    unfold createProject at h
    cases hinfo : deriveSourceInfo env sourceType source customName with
    | error e => rw [hinfo] at h; simp at h
    | ok info =>
      obtain ⟨displayName, videoID, fileRef⟩ := info
      rw [hinfo] at h
      simp only [Prod.mk.injEq, Except.ok.injEq] at h
      have hproj : proj = mkProjectConfig env sourceType source targetLang
          displayName videoID fileRef
          (resolveProjectNameClash (st.projects.map Prod.fst)
            (mkFolderName displayName videoID targetLang)).2 := h.2.symm
      have hfr : ∀ r, fileRef = some r → r.IsLinked = true := by
        intro r hfr
        unfold deriveSourceInfo at hinfo
        by_cases h1 : sourceType = "youtube"
        · rw [if_pos h1] at hinfo
          by_cases h2 : extractVideoID source = ""
          · simp [h2] at hinfo
          · simp only [h2, if_neg, if_false] at hinfo
            simp at hinfo
            rw [← hinfo.2.2] at hfr
            simp at hfr
        · rw [if_neg h1] at hinfo
          by_cases h2 : sourceType = "video" ∨ sourceType = "audio"
          · rw [if_pos h2] at hinfo
            cases hstat : env.sourceStat with
            | none => rw [hstat] at hinfo; simp at hinfo
            | some stat =>
              rw [hstat] at hinfo
              simp at hinfo
              rw [← hinfo.2.2] at hfr
              simp at hfr
              rw [← hfr]
          · rw [if_neg h2] at hinfo; simp at hinfo
      subst hproj
      have hrefs : ∀ fr : Option FileReference,
          ((mkProjectConfig env sourceType source targetLang displayName videoID fr
              (resolveProjectNameClash (st.projects.map Prod.fst)
                (mkFolderName displayName videoID targetLang)).2).FileReferences.VideoFile = fr ∨
            (mkProjectConfig env sourceType source targetLang displayName videoID fr
              (resolveProjectNameClash (st.projects.map Prod.fst)
                (mkFolderName displayName videoID targetLang)).2).FileReferences.VideoFile = none) ∧
          ((mkProjectConfig env sourceType source targetLang displayName videoID fr
              (resolveProjectNameClash (st.projects.map Prod.fst)
                (mkFolderName displayName videoID targetLang)).2).FileReferences.AudioFile = fr ∨
            (mkProjectConfig env sourceType source targetLang displayName videoID fr
              (resolveProjectNameClash (st.projects.map Prod.fst)
                (mkFolderName displayName videoID targetLang)).2).FileReferences.AudioFile = none) := by
        intro fr
        unfold mkProjectConfig
        by_cases hv : sourceType = "video" <;> by_cases ha : sourceType = "audio" <;>
          simp [hv, ha]
      rcases hr with hr | hr
      · rcases (hrefs fileRef).1 with he | he
        · rw [he] at hr; exact hfr r hr
        · rw [he] at hr; simp at hr
      · rcases (hrefs fileRef).2 with he | he
        · rw [he] at hr; exact hfr r hr
        · rw [he] at hr; simp at hr
  · intro fs pd sd ref h
    exact copyFileToProject_not_linked fs pd sd ref h
  · intro fs pd sd ref h
    cases hl : ref.IsLinked
    · rw [copyFileToProject_not_linked fs pd sd ref hl] at h
      rw [hl] at h
      exact h
    · rfl
  · intro fsV fsA pd p r'
    have haudio_keep : ∀ (q : ProjectConfig) (att : List String) (upd : Bool),
        (copyAudioPhase fsA pd q att upd).project.FileReferences.VideoFile =
          q.FileReferences.VideoFile := by
      intro q att upd
      cases haf : q.FileReferences.AudioFile with
      | none => rw [copyAudioPhase_none fsA pd q att upd haf]
      | some aref =>
        cases hl : aref.IsLinked
        · rw [copyAudioPhase_notlinked fsA pd q att upd aref haf hl]
        · cases hcp : copyFileToProject fsA pd "input" aref with
          | mk e aref2 =>
            cases e with
            | none => rw [copyAudioPhase_linked_ok fsA pd q att upd aref aref2 haf hl hcp]
            | some msg => rw [copyAudioPhase_linked_err fsA pd q att upd aref aref2 msg haf hl hcp]
    have haudio_mono : ∀ (q : ProjectConfig) (att : List String) (upd : Bool),
        (copyAudioPhase fsA pd q att upd).project.FileReferences.AudioFile = some r' →
        r'.IsLinked = true → ∃ r, q.FileReferences.AudioFile = some r ∧ r.IsLinked = true := by
      intro q att upd h hl'
      cases haf : q.FileReferences.AudioFile with
      | none =>
        rw [copyAudioPhase_none fsA pd q att upd haf] at h
        have h' : q.FileReferences.AudioFile = some r' := h
        rw [haf] at h'
        cases h'
      | some aref =>
        cases hl : aref.IsLinked
        · rw [copyAudioPhase_notlinked fsA pd q att upd aref haf hl] at h
          have h' : q.FileReferences.AudioFile = some r' := h
          rw [haf] at h'
          exact ⟨r', h', hl'⟩
        · cases hcp : copyFileToProject fsA pd "input" aref with
          | mk e aref2 =>
            cases e with
            | none =>
              rw [copyAudioPhase_linked_ok fsA pd q att upd aref aref2 haf hl hcp] at h
              have h' : some aref2 = some r' := h
              have hsh := copyFileToProject_success_shape fsA pd "input" aref aref2 hl hcp
              injection h' with h''
              rw [← h'', hsh] at hl'
              simp [copiedRef] at hl'
            | some msg =>
              rw [copyAudioPhase_linked_err fsA pd q att upd aref aref2 msg haf hl hcp] at h
              have h' : q.FileReferences.AudioFile = some r' := h
              rw [haf] at h'
              exact ⟨r', h', hl'⟩
    constructor
    · intro h hl'
      cases hvf : p.FileReferences.VideoFile with
      | none =>
        rw [copyLinked_vnone fsV fsA pd p hvf, haudio_keep, hvf] at h
        cases h
      | some vref =>
        cases hl : vref.IsLinked
        · rw [copyLinked_vnotlinked fsV fsA pd p vref hvf hl, haudio_keep] at h
          rw [hvf] at h
          exact ⟨r', h, hl'⟩
        · cases hcp : copyFileToProject fsV pd "input" vref with
          | mk e vref2 =>
            cases e with
            | none =>
              rw [copyLinked_vok fsV fsA pd p vref vref2 hvf hl hcp, haudio_keep] at h
              have h' : some vref2 = some r' := h
              have hsh := copyFileToProject_success_shape fsV pd "input" vref vref2 hl hcp
              injection h' with h''
              rw [← h'', hsh] at hl'
              simp [copiedRef] at hl'
            | some msg =>
              rw [copyLinked_verr fsV fsA pd p vref vref2 msg hvf hl hcp] at h
              have h' : p.FileReferences.VideoFile = some r' := h
              rw [hvf] at h'
              exact ⟨r', h', hl'⟩
    · intro h hl'
      cases hvf : p.FileReferences.VideoFile with
      | none =>
        rw [copyLinked_vnone fsV fsA pd p hvf] at h
        exact haudio_mono p [] false h hl'
      | some vref =>
        cases hl : vref.IsLinked
        · rw [copyLinked_vnotlinked fsV fsA pd p vref hvf hl] at h
          exact haudio_mono p [] false h hl'
        · cases hcp : copyFileToProject fsV pd "input" vref with
          | mk e vref2 =>
            cases e with
            | none =>
              rw [copyLinked_vok fsV fsA pd p vref vref2 hvf hl hcp] at h
              have hm := haudio_mono
                { p with FileReferences :=
                    { p.FileReferences with VideoFile := some vref2 } }
                ["video"] true h hl'
              exact hm
            | some msg =>
              rw [copyLinked_verr fsV fsA pd p vref vref2 msg hvf hl hcp] at h
              exact ⟨r', h, hl'⟩

/-- The audio phase leaves the stored video reference untouched. -/
theorem copyAudioPhase_video_keep (fsA : FsOutcome) (pd : String) (q : ProjectConfig)
    (att : List String) (upd : Bool) :
    (copyAudioPhase fsA pd q att upd).project.FileReferences.VideoFile =
      q.FileReferences.VideoFile := by
  rcases haf : q.FileReferences.AudioFile with _ | aref
  · rw [copyAudioPhase_none fsA pd q att upd haf]
  · cases hal : aref.IsLinked
    · rw [copyAudioPhase_notlinked fsA pd q att upd aref haf hal]
    · rcases hcp : copyFileToProject fsA pd "input" aref with ⟨e, rest⟩
      cases e
      · rw [copyAudioPhase_linked_ok fsA pd q att upd aref rest haf hal hcp]
      · rw [copyAudioPhase_linked_err fsA pd q att upd aref rest _ haf hal hcp]

/-- In the audio phase, persistence happens exactly when no error occurred and
some reference was copied (assuming the invariant the caller maintains between
the updated flag and the attempt list). -/
theorem copyAudioPhase_persisted_iff (fsA : FsOutcome) (pd : String) (q : ProjectConfig)
    (att : List String) (upd : Bool) (hcons : upd = true ↔ att ≠ []) :
    (copyAudioPhase fsA pd q att upd).persisted = true ↔
      ((copyAudioPhase fsA pd q att upd).err = none ∧
        (copyAudioPhase fsA pd q att upd).attempts ≠ []) := by
  rcases haf : q.FileReferences.AudioFile with _ | aref
  · rw [copyAudioPhase_none fsA pd q att upd haf]
    simpa using hcons
  · cases hal : aref.IsLinked
    · rw [copyAudioPhase_notlinked fsA pd q att upd aref haf hal]
      simpa using hcons
    · rcases hcp : copyFileToProject fsA pd "input" aref with ⟨e, rest⟩
      cases e
      · rw [copyAudioPhase_linked_ok fsA pd q att upd aref rest haf hal hcp]
        simp
      · rw [copyAudioPhase_linked_err fsA pd q att upd aref rest _ haf hal hcp]
        simp

/-- Filesystem outcome with all three copy steps succeeding. -/
def fsAllOk : FsOutcome := { openSrcOk := true, createDestOk := true, copyOk := true }

/-- Filesystem outcome where the source file cannot be opened (for example it
was deleted after linking). -/
def fsNoOpen : FsOutcome := { openSrcOk := false, createDestOk := true, copyOk := true }

/-- A linked video reference. -/
def refVideo : FileReference :=
  { Path := "/media/v.mp4", IsLinked := true, OriginalPath := some "/media/v.mp4",
    Size := none, LastModified := none }

/-- A linked audio reference. -/
def refAudio : FileReference :=
  { Path := "/media/a.wav", IsLinked := true, OriginalPath := some "/media/a.wav",
    Size := none, LastModified := none }

/-- An already-copied reference. -/
def refCopied : FileReference :=
  { Path := "input/v.mp4", IsLinked := false, OriginalPath := some "input/v.mp4",
    Size := none, LastModified := none }

/-- A project carrying both a linked video and a linked audio reference. -/
def projBoth : ProjectConfig :=
  { (default : ProjectConfig) with
      FileReferences :=
        { VideoFile := some refVideo, AudioFile := some refAudio,
          SegmentsFile := none, FinalAudio := none, FinalVideo := none } }

/-- Claim C8 (counterexample): when the video copy succeeds and the audio copy
then fails, Go returns the error before reaching UpdateProject — so one copy
succeeded, yet the updated document is NOT persisted, refuting "when at least
one copy succeeds the updated project document is persisted". -/
theorem copyLinkedFiles_not_persisted_counterexample :
    (copyLinkedFilesToProject fsAllOk fsNoOpen "/p" projBoth).attempts = ["video", "audio"] ∧
    (copyLinkedFilesToProject fsAllOk fsNoOpen "/p" projBoth).project.FileReferences.VideoFile =
      some (copiedRef "input" refVideo) ∧
    (copyLinkedFilesToProject fsAllOk fsNoOpen "/p" projBoth).err =
      some "failed to copy audio file: failed to open source file" ∧
    (copyLinkedFilesToProject fsAllOk fsNoOpen "/p" projBoth).persisted = false := by
  decide

/-- Claim C8 (amended): CopyLinkedFilesToProject attempts the link-to-copy
transition on the populated linked references in the fixed order video then
audio; a video failure aborts before the audio copy is attempted and returns
the error without mutating the document; an audio failure after a successful
video copy returns the error while the video reference keeps its copied state
in the in-memory document (no rollback) but nothing is persisted; and the
updated document is persisted exactly when no copy failed and at least one
reference was copied. -/
theorem copyLinkedFiles_behavior (fsV fsA : FsOutcome) (pd : String) (p : ProjectConfig) :
    ((copyLinkedFilesToProject fsV fsA pd p).persisted = true ↔
      ((copyLinkedFilesToProject fsV fsA pd p).err = none ∧
        (copyLinkedFilesToProject fsV fsA pd p).attempts ≠ [])) ∧
    (∀ vref rest e, p.FileReferences.VideoFile = some vref → vref.IsLinked = true →
      copyFileToProject fsV pd "input" vref = (some e, rest) →
      copyLinkedFilesToProject fsV fsA pd p =
        { attempts := ["video"], project := p,
          err := some ("failed to copy video file: " ++ e), persisted := false }) ∧
    (∀ vref vref2 aref rest e,
      p.FileReferences.VideoFile = some vref → vref.IsLinked = true →
      copyFileToProject fsV pd "input" vref = (none, vref2) →
      p.FileReferences.AudioFile = some aref → aref.IsLinked = true →
      copyFileToProject fsA pd "input" aref = (some e, rest) →
      (copyLinkedFilesToProject fsV fsA pd p).attempts = ["video", "audio"] ∧
      (copyLinkedFilesToProject fsV fsA pd p).err =
        some ("failed to copy audio file: " ++ e) ∧
      (copyLinkedFilesToProject fsV fsA pd p).persisted = false ∧
      (copyLinkedFilesToProject fsV fsA pd p).project.FileReferences.VideoFile = some vref2) ∧
    ((copyLinkedFilesToProject fsV fsA pd p).err = none →
      ∀ vref, p.FileReferences.VideoFile = some vref → vref.IsLinked = true →
        (copyLinkedFilesToProject fsV fsA pd p).project.FileReferences.VideoFile =
          some (copiedRef "input" vref)) ∧
    ((copyLinkedFilesToProject fsV fsA pd p).err = none →
      ∀ aref, p.FileReferences.AudioFile = some aref → aref.IsLinked = true →
        (copyLinkedFilesToProject fsV fsA pd p).project.FileReferences.AudioFile =
          some (copiedRef "input" aref)) := by
  refine ⟨?_, ?_, ?_, ?_, ?_⟩
  · rcases hvf : p.FileReferences.VideoFile with _ | vref
    · rw [copyLinked_vnone fsV fsA pd p hvf]
      exact copyAudioPhase_persisted_iff fsA pd p [] false (by simp)
    · cases hvl : vref.IsLinked
      · rw [copyLinked_vnotlinked fsV fsA pd p vref hvf hvl]
        exact copyAudioPhase_persisted_iff fsA pd p [] false (by simp)
      · rcases hcpv : copyFileToProject fsV pd "input" vref with ⟨e, rest⟩
        cases e
        · rw [copyLinked_vok fsV fsA pd p vref rest hvf hvl hcpv]
          exact copyAudioPhase_persisted_iff fsA pd _ ["video"] true (by simp)
        · rw [copyLinked_verr fsV fsA pd p vref rest _ hvf hvl hcpv]
          simp
  · intro vref rest e hvf hvl hcp
    exact copyLinked_verr fsV fsA pd p vref rest e hvf hvl hcp
  · intro vref vref2 aref rest e hvf hvl hcpv haf hal hcpa
    rw [copyLinked_vok fsV fsA pd p vref vref2 hvf hvl hcpv]
    have haf' : ({ p with FileReferences :=
        { p.FileReferences with VideoFile := some vref2 } } :
          ProjectConfig).FileReferences.AudioFile = some aref := haf
    rw [copyAudioPhase_linked_err fsA pd _ ["video"] true aref rest e haf' hal hcpa]
    exact ⟨rfl, rfl, rfl, rfl⟩
  · intro herr vref hvf hvl
    rcases hcpv : copyFileToProject fsV pd "input" vref with ⟨e, rest⟩
    cases e with
    | some msg =>
      rw [copyLinked_verr fsV fsA pd p vref rest msg hvf hvl hcpv] at herr
      cases herr
    | none =>
      have hsh := copyFileToProject_success_shape fsV pd "input" vref rest hvl hcpv
      rw [copyLinked_vok fsV fsA pd p vref rest hvf hvl hcpv]
      rw [copyAudioPhase_video_keep]
      rw [hsh]
  · intro herr aref haf hal
    rcases hcpa : copyFileToProject fsA pd "input" aref with ⟨ea, resta⟩
    have haud : ∀ (q : ProjectConfig) (att : List String) (upd : Bool),
        q.FileReferences.AudioFile = some aref →
        (copyAudioPhase fsA pd q att upd).err = none →
        (copyAudioPhase fsA pd q att upd).project.FileReferences.AudioFile =
          some (copiedRef "input" aref) := by
      intro q att upd haf' herr'
      cases ea with
      | some msg =>
        rw [copyAudioPhase_linked_err fsA pd q att upd aref resta msg haf' hal hcpa] at herr'
        cases herr'
      | none =>
        have hsh := copyFileToProject_success_shape fsA pd "input" aref resta hal hcpa
        rw [copyAudioPhase_linked_ok fsA pd q att upd aref resta haf' hal hcpa]
        rw [hsh]
    rcases hvf : p.FileReferences.VideoFile with _ | vref
    · rw [copyLinked_vnone fsV fsA pd p hvf] at herr ⊢
      exact haud p [] false haf herr
    · cases hvl : vref.IsLinked
      · rw [copyLinked_vnotlinked fsV fsA pd p vref hvf hvl] at herr ⊢
        exact haud p [] false haf herr
      · rcases hcpv : copyFileToProject fsV pd "input" vref with ⟨e, rest⟩
        cases e with
        | some msg =>
          rw [copyLinked_verr fsV fsA pd p vref rest msg hvf hvl hcpv] at herr
          cases herr
        | none =>
          rw [copyLinked_vok fsV fsA pd p vref rest hvf hvl hcpv] at herr ⊢
          exact haud _ ["video"] true haf herr

/-- Claim C8 witness: the amended theorem applied to the concrete project with
both references linked, an all-ok video filesystem and an audio source that
cannot be opened. -/
theorem copyLinkedFiles_behavior_witness :
    (copyLinkedFilesToProject fsAllOk fsNoOpen "/p" projBoth).attempts = ["video", "audio"] ∧
    (copyLinkedFilesToProject fsAllOk fsNoOpen "/p" projBoth).err =
      some ("failed to copy audio file: " ++ "failed to open source file") ∧
    (copyLinkedFilesToProject fsAllOk fsNoOpen "/p" projBoth).persisted = false ∧
    (copyLinkedFilesToProject fsAllOk fsNoOpen "/p" projBoth).project.FileReferences.VideoFile =
      some (copiedRef "input" refVideo) := by
  exact (copyLinkedFiles_behavior fsAllOk fsNoOpen "/p" projBoth).2.2.1
    refVideo (copiedRef "input" refVideo) refAudio refAudio "failed to open source file"
    (by decide) (by decide) (by decide) (by decide) (by decide) (by decide)

/-- Settings document used by the concrete witnesses. -/
def settingsW : AppSettings :=
  { DefaultProjectsPath := "/home/u/Documents/KokoroStudio", AutoCleanup := "auto",
    ShowOnboarding := true, RecentProjects := [], ExportLocation := "project-folder",
    CustomExportPath := none }

/-- Empty store used by the concrete witnesses. -/
def stW : Store := { projects := [], settings := settingsW }

/-- CreateProject environment for a local video source. -/
def envVideoW : CreateEnv :=
  { projectID := "11112222333344445555666677778888", now := "2026-01-02T03:04:05Z",
    nowUnix := 1767322800, sourceStat := some { SizeBytes := 1048576, ModTime := "2025-12-31T00:00:00Z" } }

/-- The result of creating a video project from /media/v.mp4 in the empty
store. -/
def createVideoOut : Store × Except String ProjectConfig :=
  createProject envVideoW stW "video" "/media/v.mp4" "es" ""

/-- The project document returned by createVideoOut. -/
def projVideoW : ProjectConfig := createVideoOut.2.toOption.getD default

/-- Claim C7 witness: the created video project's reference is linked, copying
an already-copied reference is a no-op, and a linked result implies a linked
input (instantiated where the copy fails and the reference stays linked). -/
theorem isLinked_one_directional_witness :
    (projVideoW.FileReferences.VideoFile.getD default).IsLinked = true ∧
    copyFileToProject fsAllOk "/p" "input" refCopied = (none, refCopied) ∧
    refVideo.IsLinked = true := by
  refine ⟨?_, ?_, ?_⟩
  · exact isLinked_one_directional.1 envVideoW stW "video" "/media/v.mp4" "es" ""
      createVideoOut.1 projVideoW rfl
      (projVideoW.FileReferences.VideoFile.getD default) (Or.inl (by decide))
  · exact isLinked_one_directional.2.1 fsAllOk "/p" "input" refCopied (by decide)
  · exact isLinked_one_directional.2.2.1 fsNoOpen "/p" "input" refVideo (by decide)

/-! Recent-projects list (Go addToRecentProjects). -/

theorem removeFirst_sublist (l : List String) (pid : String) :
    (removeFirst l pid).Sublist l := by
  induction l with
  | nil => simp [removeFirst]
  | cons x xs ih =>
    by_cases hx : x = pid
    · simp only [removeFirst, if_pos hx]
      exact (List.sublist_cons_self x xs)
    · simp only [removeFirst, if_neg hx]
      exact ih.cons₂ x

theorem not_mem_removeFirst (l : List String) (pid : String) (h : l.Nodup) :
    pid ∉ removeFirst l pid := by
  induction l with
  | nil => simp [removeFirst]
  | cons x xs ih =>
    rcases List.nodup_cons.mp h with ⟨hx, hxs⟩
    by_cases hxe : x = pid
    · simp only [removeFirst, if_pos hxe]
      rw [← hxe]
      exact hx
    · simp only [removeFirst, if_neg hxe]
      intro hmem
      rcases List.mem_cons.mp hmem with hmem | hmem
      · exact hxe hmem.symm
      · exact ih hxs hmem

/-- Claim C4: addToRecentProjects is a fixed-capacity LRU update: the result
never exceeds length 5, the added id sits at index 0, the surviving other
entries keep their relative order (the tail is a sublist of the previous
list), and no duplicate ids are introduced (assuming the list had none, which
holds from the empty default onwards). -/
theorem addToRecentProjects_lru (recent : List String) (pid : String) :
    (addToRecentProjects recent pid).length ≤ 5 ∧
    (addToRecentProjects recent pid).head? = some pid ∧
    (addToRecentProjects recent pid).tail.Sublist recent ∧
    (recent.Nodup → (addToRecentProjects recent pid).Nodup) := by
  refine ⟨?_, ?_, ?_, ?_⟩
  · simp only [addToRecentProjects]
    rw [List.length_take]
    omega
  · simp only [addToRecentProjects]
    rw [show (5 : Nat) = 4 + 1 from rfl, List.take_succ_cons]
    rfl
  · simp only [addToRecentProjects]
    rw [show (5 : Nat) = 4 + 1 from rfl, List.take_succ_cons]
    exact (List.take_sublist 4 _).trans (removeFirst_sublist recent pid)
  · intro h
    simp only [addToRecentProjects]
    refine (List.take_sublist 5 _).nodup ?_
    rw [List.nodup_cons]
    exact ⟨not_mem_removeFirst recent pid h, ((removeFirst_sublist recent pid).nodup h)⟩

/-- Claim C4 witness: adding an id already present in a full list of five
moves it to the front without duplication, keeping length 5. -/
theorem addToRecentProjects_lru_witness :
    (addToRecentProjects ["a", "b", "c", "d", "e"] "c").length ≤ 5 ∧
    (addToRecentProjects ["a", "b", "c", "d", "e"] "c").head? = some "c" ∧
    (addToRecentProjects ["a", "b", "c", "d", "e"] "c").tail.Sublist ["a", "b", "c", "d", "e"] ∧
    (addToRecentProjects ["a", "b", "c", "d", "e"] "c").Nodup := by
  have h := addToRecentProjects_lru ["a", "b", "c", "d", "e"] "c"
  exact ⟨h.1, h.2.1, h.2.2.1, h.2.2.2 (by decide)⟩

/-! Folder-name sanitization (claim C6). -/

theorem replace_chain_pointwise (c : Char) :
    replace1 '|' '-' (replace1 '>' '-' (replace1 '<' '-' (replace1 '\"' '-'
      (replace1 '?' '-' (replace1 '*' '-' (replace1 ':' '-' (replace1 '\\' '-'
        (replace1 '/' '-' c)))))))) = replaceReservedChar c := by
  by_cases hc : c ∈ reservedChars
  · fin_cases hc <;> rfl
  · have hne : c ≠ '/' ∧ c ≠ '\\' ∧ c ≠ ':' ∧ c ≠ '*' ∧ c ≠ '?' ∧ c ≠ '\"' ∧
        c ≠ '<' ∧ c ≠ '>' ∧ c ≠ '|' := by
      simpa [reservedChars, not_or] using hc
    obtain ⟨n1, n2, n3, n4, n5, n6, n7, n8, n9⟩ := hne
    unfold replace1 replaceReservedChar
    rw [if_neg n1, if_neg n2, if_neg n3, if_neg n4, if_neg n5, if_neg n6, if_neg n7,
      if_neg n8, if_neg n9, if_neg hc]

theorem sanitizeForFilename_eq_replacing (name : String) :
    sanitizeForFilename name = sanitizeByReplacing name := by
  have hA : goReplaceAll1 (goReplaceAll1 (goReplaceAll1 (goReplaceAll1 (goReplaceAll1
      (goReplaceAll1 (goReplaceAll1 (goReplaceAll1 (goReplaceAll1 name '/' '-')
      '\\' '-') ':' '-') '*' '-') '?' '-') '\"' '-') '<' '-') '>' '-') '|' '-' =
      String.mk (name.data.map replaceReservedChar) := by
    apply string_data_ext
    show (((((((((name.data.map (replace1 '/' '-')).map (replace1 '\\' '-')).map
      (replace1 ':' '-')).map (replace1 '*' '-')).map (replace1 '?' '-')).map
      (replace1 '\"' '-')).map (replace1 '<' '-')).map (replace1 '>' '-')).map
      (replace1 '|' '-')) = name.data.map replaceReservedChar
    simp only [List.map_map]
    apply List.map_congr_left
    intro c _
    simp only [Function.comp_apply]
    exact replace_chain_pointwise c
  simp only [sanitizeForFilename, sanitizeByReplacing]
  rw [hA]

/-- Claim C6 (counterexample): the code REPLACES each reserved character with
a dash instead of STRIPPING it: for display name "a/b" the real folder name is
"a-b [vid] [ES]" while the claimed stripping sanitizer yields
"ab [vid] [ES]". -/
theorem folderName_strip_counterexample :
    mkFolderName "a/b" "vid" "es" = "a-b [vid] [ES]" ∧
    claimedFolderName "a/b" "vid" "es" = "ab [vid] [ES]" ∧
    mkFolderName "a/b" "vid" "es" ≠ claimedFolderName "a/b" "vid" "es" := by
  decide

/-- Claim C6 (amended): the folder name produced at create before clash
resolution is "<sanitized> [<videoID>] [<TARGET-LANG-UPPERCASE>]", where the
sanitizer replaces each of the reserved characters / \ : * ? " < > | with a
dash, truncates to the first 50 bytes (= 50 characters for ASCII names)
before the suffixes, and trims surrounding whitespace. -/
theorem mkFolderName_replaces (displayName videoID targetLang : String) :
    mkFolderName displayName videoID targetLang =
      sanitizeByReplacing displayName ++ " [" ++ videoID ++ "] [" ++
        goToUpper targetLang ++ "]" := by
  unfold mkFolderName
  rw [sanitizeForFilename_eq_replacing]

/-! Recent-project listing (claim C9). -/

/-- The successful payload of an Except, when present. -/
def exceptToOption {ε α : Type} : Except ε α → Option α
  | .ok a => some a
  | .error _ => none

theorem loadRecentAux_eq_filterMap (st : Store) :
    ∀ ids : List String, loadRecentAux st ids =
      ids.filterMap (fun pid => exceptToOption (loadProject st pid)) := by
  intro ids
  induction ids with
  | nil => rfl
  | cons i rest ih =>
    cases hl : loadProject st i with
    | error e => simp [loadRecentAux, hl, ih, exceptToOption]
    | ok p => simp [loadRecentAux, hl, ih, exceptToOption]

/-- Claim C9: GetRecentProjects reads recentProjects, loads each id in order,
silently skips every entry that fails to load while keeping the recency order
of the ids that do load (it is exactly the filterMap of loadProject over the
list), and always returns a successful, possibly empty sequence — never a
null-like absence. -/
theorem getRecentProjects_skips_failures (st : Store) :
    getRecentProjects st =
      .ok (st.settings.RecentProjects.filterMap
        (fun pid => exceptToOption (loadProject st pid))) := by
  unfold getRecentProjects
  rw [loadRecentAux_eq_filterMap]

/-! Clash resolution claims (claim C5). -/

/-- Claim C5 (amended): the clash-resolution loop, started at version 1,
always returns a candidate name that does not exist in the directory, after at
most existing.length + 1 existence probes (the returned version equals the
number of probes); it has no failing outcome at all (its result type carries
no error) and in particular never loops unboundedly on a finite directory —
but it enforces no fixed cap. -/
theorem resolveProjectNameClash_bounded (existing : List String) (base : String) :
    (resolveProjectNameClash existing base).1 ∉ existing ∧
    (resolveProjectNameClash existing base).2 ≤ existing.length + 1 :=
  ⟨resolveProjectNameClash_not_mem existing base,
    resolveProjectNameClash_version_le existing base⟩

/-- Claim C5 (counterexample): with 300 clashing names — past the "few
hundred" cap the specification demands — the loop simply performs its 301st
probe and returns "p (301)" at version 301 with no error: there is no cap and
no deterministic failure, the function cannot fail at all. -/
theorem resolveProjectNameClash_no_cap :
    resolveProjectNameClash ((List.range 300).map (fun k => candidateName "p" (k + 1))) "p" =
      ("p (301)", 301) ∧
    ("p (301)" : String) ∉ (List.range 300).map (fun k => candidateName "p" (k + 1)) := by
  have hlen : ((List.range 300).map (fun k => candidateName "p" (k + 1))).length = 300 := by
    simp
  have hmem : ∀ j, j < 300 → candidateName "p" (1 + j) ∈
      (List.range 300).map (fun k => candidateName "p" (k + 1)) := by
    intro j hj
    exact List.mem_map.mpr ⟨j, List.mem_range.mpr hj, by rw [Nat.add_comm]⟩
  have hfree : candidateName "p" (1 + 300) ∉
      (List.range 300).map (fun k => candidateName "p" (k + 1)) := by
    intro hx
    obtain ⟨k, hk, he⟩ := List.mem_map.mp hx
    have heq := candidateName_inj "p" he
    have hk' := List.mem_range.mp hk
    omega
  have hexact := resolveClashAux_exact
    ((List.range 300).map (fun k => candidateName "p" (k + 1))) "p" 301 1 300
    (by omega) hmem hfree
  have hname : candidateName "p" (1 + 300) = "p (301)" := by decide
  constructor
  · show resolveClashAux ((List.range 300).map (fun k => candidateName "p" (k + 1))) "p"
      (((List.range 300).map (fun k => candidateName "p" (k + 1))).length + 1) 1 =
      ("p (301)", 301)
    rw [hlen, hexact, hname]
  · rw [← hname]
    exact hfree

/-! Create / load round-trip (claim C2). -/

/-- Claim C2: for every CreateProject call that succeeds and whose generated
ID is fresh (the design relies on 128-bit random IDs never colliding),
loading the returned ID from the resulting store succeeds and returns exactly
the document CreateProject returned.  The model stores parsed documents, so
the equality is on the nose — in particular equal up to lastModified
granularity. -/
theorem create_load_roundtrip (env : CreateEnv) (st : Store)
    (sourceType source targetLang customName : String) (st' : Store) (proj : ProjectConfig)
    (hfresh : ∀ p ∈ st.projects, p.2.ID ≠ env.projectID)
    (h : createProject env st sourceType source targetLang customName = (st', .ok proj)) :
    loadProject st' proj.ID = .ok proj := by
  unfold createProject at h
  cases hinfo : deriveSourceInfo env sourceType source customName with
  | error e => rw [hinfo] at h; simp at h
  | ok info =>
    obtain ⟨displayName, videoID, fileRef⟩ := info
    rw [hinfo] at h
    simp only [Prod.mk.injEq, Except.ok.injEq] at h
    obtain ⟨hst, hproj⟩ := h
    subst hproj
    subst hst
    set M := mkProjectConfig env sourceType source targetLang displayName videoID fileRef
      (resolveProjectNameClash (st.projects.map Prod.fst)
        (mkFolderName displayName videoID targetLang)).2 with hM
    set R := resolveProjectNameClash (st.projects.map Prod.fst)
      (mkFolderName displayName videoID targetLang) with hR
    have hid : M.ID = env.projectID := rfl
    have hfind1 : (st.projects ++ [(R.1, M)]).find? (fun p => p.2.ID == M.ID) =
        some (R.1, M) := by
      rw [List.find?_append]
      have h1 : st.projects.find? (fun p => p.2.ID == M.ID) = none := by
        rw [List.find?_eq_none]
        intro x hx
        simp only [beq_iff_eq, hid]
        exact hfresh x hx
      rw [h1]
      simp
    have hfolder_fresh := resolveProjectNameClash_not_mem (st.projects.map Prod.fst)
      (mkFolderName displayName videoID targetLang)
    rw [← hR] at hfolder_fresh
    have hfind2 : (st.projects ++ [(R.1, M)]).find? (fun p => p.1 == R.1) =
        some (R.1, M) := by
      rw [List.find?_append]
      have h2 : st.projects.find? (fun p => p.1 == R.1) = none := by
        rw [List.find?_eq_none]
        intro x hx
        simp only [beq_iff_eq]
        intro hc
        exact hfolder_fresh (hc ▸ List.mem_map_of_mem Prod.fst hx)
      rw [h2]
      simp
    have hdir : findProjectDirectory
        { projects := st.projects ++ [(R.1, M)],
          settings := { st.settings with
            RecentProjects := addToRecentProjects st.settings.RecentProjects env.projectID } }
        M.ID = .ok R.1 := by
      unfold findProjectDirectory
      rw [hfind1]
    unfold loadProject
    rw [hdir]
    unfold readProjectConfig
    simp only [hfind2]

/-- CreateProject environment for a YouTube source. -/
def envYtW : CreateEnv :=
  { projectID := "8f14e45fceea167a5a36dedd4bea2543", now := "2026-01-01T00:00:00Z",
    nowUnix := 0, sourceStat := none }

/-- The result of creating a youtube project from a bare video id in the
empty store. -/
def createYtOut : Store × Except String ProjectConfig :=
  createProject envYtW stW "youtube" "dQw4w9WgXcQ" "es" ""

/-- The project document returned by createYtOut. -/
def projYtW : ProjectConfig := createYtOut.2.toOption.getD default

/-- Claim C2 witness: the round-trip at a concrete youtube create in the
empty store. -/
theorem create_load_roundtrip_witness :
    loadProject createYtOut.1 projYtW.ID = .ok projYtW := by
  exact create_load_roundtrip envYtW stW "youtube" "dQw4w9WgXcQ" "es" ""
    createYtOut.1 projYtW (by intro p hp; simp [stW] at hp) rfl

/-! Invalid YouTube URL (claim C10). -/

theorem extractVideoID_empty (url : String)
    (h1 : goContains url "youtube.com/watch?v=" = false)
    (h2 : goContains url "youtu.be/" = false)
    (h3 : ¬(goLen url = 11 ∧ goContains url "/" = false)) :
    extractVideoID url = "" := by
  have hcond : (decide (goLen url = 11) && !goContains url "/") = false := by
    by_cases h11 : goLen url = 11
    · have hcg : goContains url "/" = true := by
        cases hcg : goContains url "/"
        · exact absurd ⟨h11, hcg⟩ h3
        · rfl
      simp [h11, hcg]
    · simp [h11]
  unfold extractVideoID extractVideoIDTail
  simp [h1, h2, hcond]

/-- Claim C10: a CreateProject call with sourceType youtube whose source
contains neither a "youtube.com/watch?v=" nor a "youtu.be/" segment and is
not itself an 11-byte slash-free string returns the invalid-YouTube-URL
error, creates no project folder and leaves recentProjects (and the whole
store) unchanged. -/
theorem createProject_invalid_youtube (env : CreateEnv) (st : Store)
    (source targetLang customName : String)
    (h1 : goContains source "youtube.com/watch?v=" = false)
    (h2 : goContains source "youtu.be/" = false)
    (h3 : ¬(goLen source = 11 ∧ goContains source "/" = false)) :
    createProject env st "youtube" source targetLang customName =
      (st, .error ("invalid YouTube URL: " ++ source)) := by
  have hvid := extractVideoID_empty source h1 h2 h3
  unfold createProject deriveSourceInfo
  simp [hvid]

/-- Claim C10 witness: creating a youtube project from the unparsable source
"notaurl" fails with the invalid-URL error and leaves the store unchanged. -/
theorem createProject_invalid_youtube_witness :
    createProject envYtW stW "youtube" "notaurl" "es" "" =
      (stW, .error ("invalid YouTube URL: " ++ "notaurl")) := by
  exact createProject_invalid_youtube envYtW stW "notaurl" "es" ""
    (by decide) (by decide) (by decide)

end VoiceWeave
